import Mathlib

/-!
Verification of the BOBO CSV data simulator (`bobosim.py`) and its companion
roster generator (`generate_test_users.py`).

The Python code is shallowly embedded: pure computations become Lean
functions; randomness is modeled by passing the results of the random draws
as explicit inputs, constrained in the theorems by the documented contracts
of the random primitives (`randint` bounds, `sample` = distinct positions,
`choices` = members of the population, `shuffle` = permutation); file and
console I/O is modeled by explicit inputs (roster-read outcomes) and
outputs (event traces).
-/

namespace BoboSim

/-! ### Decimal formatting and parsing

`bobosim.py` formats collar IDs with `f"{n:05d}"` and parses roster entries
with `int(collar_id)`.  We embed both at the level of digit characters. -/

/-- Decimal digits of `n`, least significant first, with explicit fuel
(fuel `n` always suffices) so that the recursion is structural. -/
def natDigitsRevAux : Nat → Nat → List Nat
  | 0, _ => []
  | fuel + 1, n => if n = 0 then [] else n % 10 :: natDigitsRevAux fuel (n / 10)

/-- Decimal digits of `n`, least significant first (empty for `0`). -/
def natDigitsRev (n : Nat) : List Nat := natDigitsRevAux n n

/-- Zero-padded decimal representation of width `w`, as a character list:
Python `f"{n:0wd}"` for a natural number `n`. -/
def padChars (w n : Nat) : List Char :=
  let ds := ((natDigitsRev n).reverse).map Nat.digitChar
  List.replicate (w - ds.length) '0' ++ ds

/-- Python `f"{n:05d}"`, the collar-ID string format used throughout. -/
def pad5 (n : Nat) : String := String.mk (padChars 5 n)

/-- The numeric value of a decimal digit character, if it is one. -/
def charDigit? (c : Char) : Option Nat :=
  if '0' ≤ c ∧ c ≤ '9' then some (c.toNat - 48) else none

/-- Parse a run of decimal digit characters, most significant first,
accumulating into `acc`; fails on any non-digit character. -/
def parseNatChars : Nat → List Char → Option Nat
  | acc, [] => some acc
  | acc, c :: cs =>
    match charDigit? c with
    | some d => parseNatChars (10 * acc + d) cs
    | none => none

/-- Model of Python `int(s)` as used on stripped roster fields: an optional
sign followed by at least one decimal digit.  (Python additionally tolerates
surrounding whitespace and digit-group underscores; the simulator only calls
`int` on stripped plain-digit fields, so those cases are not modeled.) -/
def pyInt? (s : String) : Option Int :=
  match s.data with
  | [] => none
  | c :: cs =>
    if c = '-' then
      if cs = [] then none else (parseNatChars 0 cs).map (fun n => -(n : Int))
    else if c = '+' then
      if cs = [] then none else (parseNatChars 0 cs).map (fun n => (n : Int))
    else (parseNatChars 0 (c :: cs)).map (fun n => (n : Int))

theorem natDigitsRevAux_zero (fuel : Nat) : natDigitsRevAux fuel 0 = [] := by
  cases fuel <;> simp [natDigitsRevAux]

theorem natDigitsRevAux_congr :
    ∀ (f g n : Nat), n ≤ f → n ≤ g → natDigitsRevAux f n = natDigitsRevAux g n := by
  intro f
  induction f with
  | zero =>
    intro g n hf _
    interval_cases n
    simp [natDigitsRevAux_zero]
  | succ f ih =>
    intro g n hf hg
    cases n with
    | zero => simp [natDigitsRevAux_zero]
    | succ m =>
      obtain ⟨g', rfl⟩ : ∃ g', g = g' + 1 := ⟨g - 1, by omega⟩
      have hdiv : (m + 1) / 10 < m + 1 := Nat.div_lt_self (by omega) (by omega)
      simp only [natDigitsRevAux]
      rw [if_neg (by omega), if_neg (by omega),
        ih g' ((m + 1) / 10) (by omega) (by omega)]

theorem natDigitsRev_succ (n : Nat) (hn : 0 < n) :
    natDigitsRev n = n % 10 :: natDigitsRev (n / 10) := by
  obtain ⟨m, rfl⟩ : ∃ m, n = m + 1 := ⟨n - 1, by omega⟩
  have hdiv : (m + 1) / 10 < m + 1 := Nat.div_lt_self (by omega) (by omega)
  show natDigitsRevAux (m + 1) (m + 1) = _
  simp only [natDigitsRevAux]
  rw [if_neg (by omega),
    natDigitsRevAux_congr m ((m + 1) / 10) ((m + 1) / 10) (by omega) le_rfl]
  rfl

theorem natDigitsRev_mem_lt (n : Nat) : ∀ d ∈ natDigitsRev n, d < 10 := by
  induction n using Nat.strong_induction_on with
  | _ n ih =>
    cases Nat.eq_zero_or_pos n with
    | inl h => subst h; intro d hd; simp [natDigitsRev, natDigitsRevAux_zero] at hd
    | inr h =>
      rw [natDigitsRev_succ n h]
      intro d hd
      rcases List.mem_cons.mp hd with h1 | h2
      · subst h1; exact Nat.mod_lt _ (by omega)
      · exact ih (n / 10) (Nat.div_lt_self h (by omega)) d h2

theorem natDigitsRev_length_le (k : Nat) :
    ∀ n : Nat, n < 10 ^ k → (natDigitsRev n).length ≤ k := by
  induction k with
  | zero =>
    intro n hn
    interval_cases n
    simp [natDigitsRev, natDigitsRevAux_zero]
  | succ k ih =>
    intro n hn
    cases Nat.eq_zero_or_pos n with
    | inl h => subst h; simp [natDigitsRev, natDigitsRevAux_zero]
    | inr h =>
      rw [natDigitsRev_succ n h]
      have : n / 10 < 10 ^ k := by
        rw [Nat.div_lt_iff_lt_mul (by omega)]
        calc n < 10 ^ (k + 1) := hn
        _ = 10 ^ k * 10 := by rw [Nat.pow_succ]
      simpa using ih (n / 10) this

/-- The big-endian fold that a digit-by-digit parse performs. -/
def valFold (acc : Nat) (ds : List Nat) : Nat :=
  ds.foldl (fun a d => 10 * a + d) acc

theorem valFold_append (acc : Nat) (l1 l2 : List Nat) :
    valFold acc (l1 ++ l2) = valFold (valFold acc l1) l2 := by
  simp [valFold, List.foldl_append]

theorem valFold_digits (n : Nat) :
    ∀ acc : Nat, valFold acc (natDigitsRev n).reverse
      = acc * 10 ^ (natDigitsRev n).length + n := by
  induction n using Nat.strong_induction_on with
  | _ n ih =>
    intro acc
    cases Nat.eq_zero_or_pos n with
    | inl h => subst h; simp [natDigitsRev, natDigitsRevAux_zero, valFold]
    | inr h =>
      rw [natDigitsRev_succ n h]
      have hdiv : n / 10 < n := Nat.div_lt_self h (by omega)
      calc valFold acc ((n % 10 :: natDigitsRev (n / 10)).reverse)
          = valFold acc ((natDigitsRev (n / 10)).reverse ++ [n % 10]) := by
            simp
        _ = 10 * (acc * 10 ^ (natDigitsRev (n / 10)).length + n / 10) + n % 10 := by
            rw [valFold_append, ih (n / 10) hdiv acc]; rfl
        _ = acc * 10 ^ ((natDigitsRev (n / 10)).length + 1) + n := by
            have := Nat.div_add_mod n 10
            rw [Nat.pow_succ]
            ring_nf
            omega
        _ = acc * 10 ^ (n % 10 :: natDigitsRev (n / 10)).length + n := by
            simp

theorem charDigit?_digitChar : ∀ d : Nat, d < 10 → charDigit? (Nat.digitChar d) = some d := by
  decide

theorem digitChar_ne_dash : ∀ d : Nat, d < 10 → Nat.digitChar d ≠ '-' := by
  decide

theorem digitChar_ne_plus : ∀ d : Nat, d < 10 → Nat.digitChar d ≠ '+' := by
  decide

theorem parseNatChars_digits (ds : List Nat) (h : ∀ d ∈ ds, d < 10) :
    ∀ acc : Nat, parseNatChars acc (ds.map Nat.digitChar) = some (valFold acc ds) := by
  induction ds with
  | nil => intro acc; simp [parseNatChars, valFold]
  | cons d rest ih =>
    intro acc
    have hd : d < 10 := h d (List.mem_cons_self d rest)
    simp only [List.map_cons, parseNatChars, charDigit?_digitChar d hd]
    rw [ih (fun x hx => h x (List.mem_cons_of_mem d hx)) (10 * acc + d)]
    rfl

theorem parseNatChars_zeros (k : Nat) (l : List Char) :
    parseNatChars 0 (List.replicate k '0' ++ l) = parseNatChars 0 l := by
  induction k with
  | zero => simp
  | succ k ih =>
    have h0 : charDigit? '0' = some 0 := by decide
    simp only [List.replicate_succ, List.cons_append, parseNatChars, h0]
    simpa using ih

theorem parseNatChars_padChars (w n : Nat) :
    parseNatChars 0 (padChars w n) = some n := by
  unfold padChars
  rw [parseNatChars_zeros,
    parseNatChars_digits ((natDigitsRev n).reverse)
      (fun d hd => natDigitsRev_mem_lt n d (List.mem_reverse.mp hd)) 0]
  have := valFold_digits n 0
  simp only [List.length_reverse] at this ⊢
  rw [this]
  simp

theorem padChars_length (w n : Nat) :
    (padChars w n).length = max w (natDigitsRev n).length := by
  simp only [padChars, List.length_append, List.length_replicate, List.length_map,
    List.length_reverse]
  omega

theorem padChars_length_of_lt (w n : Nat) (h : n < 10 ^ w) :
    (padChars w n).length = w := by
  rw [padChars_length]
  have := natDigitsRev_length_le w n h
  omega

theorem padChars_mem_digit (w n : Nat) :
    ∀ c ∈ padChars w n, ∃ d, d < 10 ∧ c = Nat.digitChar d := by
  intro c hc
  rcases List.mem_append.mp hc with h1 | h2
  · exact ⟨0, by omega, by simpa using List.eq_of_mem_replicate h1⟩
  · obtain ⟨d, hd, rfl⟩ := List.mem_map.mp h2
    exact ⟨d, natDigitsRev_mem_lt n d (List.mem_reverse.mp hd), rfl⟩

theorem padChars_ne_nil (w n : Nat) (hw : 0 < w) : padChars w n ≠ [] := by
  have := padChars_length w n
  intro h
  rw [h] at this
  simp at this
  omega

theorem pyInt?_all_digits (l : List Char) (hne : l ≠ [])
    (hd : ∀ c ∈ l, ∃ d, d < 10 ∧ c = Nat.digitChar d) :
    pyInt? (String.mk l) = (parseNatChars 0 l).map (fun n => (n : Int)) := by
  cases l with
  | nil => exact absurd rfl hne
  | cons c cs =>
    obtain ⟨d, hdlt, rfl⟩ := hd c (List.mem_cons_self c cs)
    show pyInt? ⟨Nat.digitChar d :: cs⟩ = _
    unfold pyInt?
    simp only [String.data]
    rw [if_neg (digitChar_ne_dash d hdlt), if_neg (digitChar_ne_plus d hdlt)]

/-- Round trip: parsing the zero-padded rendering of `n` with Python's `int`
recovers `n`.  This underlies the valid/unknown disjointness argument. -/
theorem pyInt?_pad5 (n : Nat) : pyInt? (pad5 n) = some (n : Int) := by
  rw [pad5, pyInt?_all_digits (padChars 5 n) (padChars_ne_nil 5 n (by omega))
    (padChars_mem_digit 5 n), parseNatChars_padChars]
  rfl

/-! ### Python `str.strip` and the roster loader (`load_valid_collar_ids`) -/

/-- ASCII whitespace stripped by Python's `str.strip()`. -/
def isPySpace (c : Char) : Bool :=
  c = ' ' ∨ c = '\t' ∨ c = '\n' ∨ c = '\r' ∨ c = Char.ofNat 11 ∨ c = Char.ofNat 12

/-- Python `s.strip()`: remove leading and trailing whitespace. -/
def pyStrip (s : String) : String :=
  String.mk (((s.data.dropWhile isPySpace).reverse.dropWhile isPySpace).reverse)

/-- Outcome of attempting to read the roster CSV `test_users_athoc.csv`.
`dataRows` are the CSV rows after the header row.
`midFail rows` models an exception raised while iterating the reader after
`rows` data rows were already consumed (for example a decoding or CSV error
in the middle of the file); `headerFail` models an exception before any data
row was consumed (for example `StopIteration` from `next(reader)` on an
empty file); `openFail` models `open` itself raising. -/
inductive RosterRead
  | absent
  | openFail
  | headerFail
  | ok (dataRows : List (List String))
  | midFail (dataRows : List (List String))

/-- The per-row processing of the loader's `for row in reader` body:
keep `row[0].strip()` when the row is non-empty and the stripped field is
non-empty. -/
def parseRosterRows (rows : List (List String)) : List String :=
  rows.filterMap (fun row =>
    if row ≠ [] ∧ 1 ≤ row.length then
      let collarId := pyStrip row.headI
      if collarId ≠ "" then some collarId else none
    else none)

/-- `load_valid_collar_ids` from `bobosim.py`.  The first component is the
global `VALID_COLLAR_IDS` after the call (its value before the call is
`prevValid`; the global is reassigned only after the header row has been
consumed, so an exception raised earlier leaves it untouched, while an
exception raised mid-iteration leaves the rows parsed so far); the second
component is the returned boolean. -/
def load_valid_collar_ids (prevValid : List String) (r : RosterRead) :
    List String × Bool :=
  match r with
  | .absent => (prevValid, false)
  | .openFail => (prevValid, false)
  | .headerFail => (prevValid, false)
  | .ok rows => (parseRosterRows rows, true)
  | .midFail rows => (parseRosterRows rows, false)

/-! ### Unknown-ID pool builder (`generate_unknown_collar_ids`) -/

/-- The `valid_ids_set` built by `generate_unknown_collar_ids`: each valid
collar ID parsed with `int(...)`, entries raising `ValueError` skipped. -/
def validIntsOf (validIds : List String) : List Int :=
  validIds.filterMap pyInt?

/-- One iteration of each band loop: append `f"{unknown_id:05d}"` unless the
draw is in the valid set. -/
def unknownStep (vInts : List Int) (acc : List String) (n : Nat) : List String :=
  if (n : Int) ∈ vInts then acc else acc ++ [pad5 n]

/-- `generate_unknown_collar_ids` from `bobosim.py`.  `prevUnknown` is the
global `UNKNOWN_COLLAR_IDS` before the call (the early return on an empty
valid list leaves it unchanged).  `band1`, `band2` and `band3` are the
results of the `random.randint` draws of the three band loops; in the code
they have lengths 10, 10 and 20 and ranges 1–99, 12001–15000 and 100–12000
respectively. -/
def generate_unknown_collar_ids (prevUnknown validIds : List String)
    (band1 band2 band3 : List Nat) : List String :=
  if validIds = [] then prevUnknown
  else (band1 ++ band2 ++ band3).foldl (unknownStep (validIntsOf validIds)) []

theorem foldl_unknownStep_mem (vInts : List Int) (draws : List Nat) :
    ∀ (acc : List String) (u : String), u ∈ draws.foldl (unknownStep vInts) acc →
      u ∈ acc ∨ ∃ n ∈ draws, (n : Int) ∉ vInts ∧ u = pad5 n := by
  induction draws with
  | nil => intro acc u hu; exact Or.inl hu
  | cons n rest ih =>
    intro acc u hu
    rcases ih (unknownStep vInts acc n) u hu with h1 | h2
    · unfold unknownStep at h1
      by_cases hmem : (n : Int) ∈ vInts
      · rw [if_pos hmem] at h1; exact Or.inl h1
      · rw [if_neg hmem] at h1
        rcases List.mem_append.mp h1 with ha | hb
        · exact Or.inl ha
        · exact Or.inr ⟨n, List.mem_cons_self n rest, hmem, List.mem_singleton.mp hb⟩
    · obtain ⟨m, hm, hnv, hu⟩ := h2
      exact Or.inr ⟨m, List.mem_cons_of_mem n hm, hnv, hu⟩

theorem foldl_unknownStep_length (vInts : List Int) (draws : List Nat) :
    ∀ acc : List String, (draws.foldl (unknownStep vInts) acc).length
      = acc.length + draws.countP (fun n : Nat => decide ((n : Int) ∉ vInts)) := by
  induction draws with
  | nil => intro acc; simp
  | cons n rest ih =>
    intro acc
    simp only [List.foldl_cons, ih (unknownStep vInts acc n), List.countP_cons]
    unfold unknownStep
    by_cases hmem : (n : Int) ∈ vInts
    · rw [if_pos hmem]
      simp [hmem]
    · rw [if_neg hmem]
      simp [hmem]
      omega

/-! ### Record synthesizer (`generate_random_entry`) -/

/-- The transaction-type enumeration of the spec; `code` gives the wire
strings actually chosen by `random.choice(['BON', 'BOF'])` (booking
on / booking off). -/
inductive TransactionType
  | ON
  | OFF
deriving DecidableEq

def TransactionType.code : TransactionType → String
  | .ON => "BON"
  | .OFF => "BOF"

/-- One clock event record, the 10-field CSV row returned by
`generate_random_entry`. -/
structure Entry where
  transaction_type : String
  employee_id : String
  payroll_id : Nat
  clocking_date : String
  clocking_time : String
  datetime_created : String
  geo_status : Nat
  geo_latitude : Rat
  geo_longitude : Rat
  geo_accuracy : Rat
deriving DecidableEq

/-- The random draws made by one call of `generate_random_entry`:
`txIsOn` is the `random.choice(['BON', 'BOF'])` outcome, `empDraw` the
`random.randint(1, 99999)` fallback employee ID, `payrollDraw` the
`random.randint(10000, 99999)` payroll ID, `secDraw` the
`random.randint(0, 59)` seconds value, `geoStatusDraw` the
`random.randint(0, 5)` geo status, and the three `geo*Draw` fields the
(already rounded) `random.uniform` float draws, carried opaquely as
rationals. -/
structure EntryRand where
  txIsOn : Bool
  empDraw : Nat
  payrollDraw : Nat
  secDraw : Nat
  geoStatusDraw : Nat
  geoLatDraw : Rat
  geoLonDraw : Rat
  geoAccDraw : Rat

/-- The fields of `datetime.now()` that the simulator reads. -/
structure Timestamp where
  year : Nat
  month : Nat
  day : Nat
  hour : Nat
  minute : Nat
  second : Nat

/-- `execution_time.strftime('%Y%m%d')`. -/
def fmtDate (t : Timestamp) : String :=
  String.mk (padChars 4 t.year ++ padChars 2 t.month ++ padChars 2 t.day)

/-- `generate_random_entry(execution_time, employee_id)` from `bobosim.py`. -/
def generate_random_entry (t : Timestamp) (employeeId : Option String)
    (r : EntryRand) : Entry :=
  let transaction_type := (if r.txIsOn then TransactionType.ON else TransactionType.OFF).code
  let employee_id :=
    match employeeId with
    | none => pad5 r.empDraw
    | some e => e
  let clocking_date := fmtDate t
  let clocking_time := String.mk (padChars 2 t.hour ++ padChars 2 t.minute ++ padChars 2 r.secDraw)
  { transaction_type := transaction_type
    employee_id := employee_id
    payroll_id := r.payrollDraw
    clocking_date := clocking_date
    clocking_time := clocking_time
    datetime_created := clocking_date ++ clocking_time
    geo_status := r.geoStatusDraw
    geo_latitude := r.geoLatDraw
    geo_longitude := r.geoLonDraw
    geo_accuracy := r.geoAccDraw }

/-! ### Batch composer (`create_bobo_csv`, lines 196–228) -/

/-- The unknown IDs put into `collar_ids_to_use` before the valid fill:
`random.sample(UNKNOWN_COLLAR_IDS, min(unknown_count, len(...)))` when
`unknown_count > 0 and UNKNOWN_COLLAR_IDS`, nothing otherwise.  `sampleRes`
is the sample result, constrained by `isSampleOf` in the theorems. -/
def injectedUnknownIds (unknown : List String) (unknownCount : Nat)
    (sampleRes : List String) : List String :=
  if 0 < unknownCount ∧ unknown ≠ [] then sampleRes else []

/-- `collar_ids_to_use` as built before the shuffle (for a non-empty valid
pool): the injected unknown IDs followed, when entries remain to fill, by
the `random.choices(VALID_COLLAR_IDS, k=remaining)` result. -/
def preShuffleIds (unknown : List String) (numEntries unknownCount : Nat)
    (sampleRes choicesRes : List String) : List String :=
  let withUnknown := injectedUnknownIds unknown unknownCount sampleRes
  withUnknown ++ (if 0 < numEntries - withUnknown.length then choicesRes else [])

/-- `collar_ids_to_use` after the shuffle: empty when the valid pool is
empty (the composition block is skipped), otherwise the shuffled list
`shuffleRes` (constrained to be a permutation of `preShuffleIds` in the
theorems). -/
def collarIdsToUse (valid shuffleRes : List String) : List String :=
  if valid = [] then [] else shuffleRes

/-- The collar ID used for slot `i` of the write loop: the predetermined ID
when `collar_ids_to_use and i < len(collar_ids_to_use)`, otherwise none
(which makes `generate_random_entry` draw a random 5-digit ID). -/
def slotId (collarIds : List String) (i : Nat) : Option String :=
  if collarIds ≠ [] ∧ i < collarIds.length then some (collarIds.getD i "") else none

/-- The list of entries written by one `create_bobo_csv` call:
`num_entries` records, slot `i` using `collar_ids_to_use[i]` when available. -/
def create_bobo_entries (valid : List String) (t : Timestamp) (numEntries : Nat)
    (shuffleRes : List String) (rands : Nat → EntryRand) : List Entry :=
  (List.range numEntries).map (fun i =>
    generate_random_entry t (slotId (collarIdsToUse valid shuffleRes) i) (rands i))

/-- The contract of `random.sample(pool, k)`: `k` elements taken at
pairwise-distinct positions of `pool`, in some order. -/
def isSampleOf (res pool : List String) (k : Nat) : Prop :=
  ∃ idx : List (Fin pool.length), idx.Nodup ∧ idx.length = k ∧ res = idx.map pool.get

/-! ### Run loop (`main`, lines 288–305) -/

/-- Observable steps of the run loop: `file k ok` is iteration `k`
(`run_counter = k`) attempting to write one batch file, `ok = false` being
the caught-and-logged write failure that makes `create_bobo_csv` return
`None`; `sleep` is the inter-batch `time.sleep`. -/
inductive RunEvent
  | file (idx : Nat) (ok : Bool)
  | sleep
deriving DecidableEq

def RunEvent.isFile : RunEvent → Bool
  | .file _ _ => true
  | .sleep => false

/-- The `while run_counter < MAX_FILE_COUNT` loop of `main`, as the trace of
events it performs, starting from counter value `counter`.  `wr k` tells
whether the file write of iteration `k` succeeds. -/
def runLoop (wr : Nat → Bool) (maxCount counter : Nat) : List RunEvent :=
  if _h : counter < maxCount then
    RunEvent.file (counter + 1) (wr (counter + 1)) ::
      (if maxCount ≤ counter + 1 then []
       else RunEvent.sleep :: runLoop wr maxCount (counter + 1))
  else []
termination_by maxCount - counter

/-! ### Roster generator (`generate_test_users`) -/

/-- The set `collar_ids` after `k` iterations of the sampling loop of
`generate_test_users`: each iteration adds one `random.randint` draw
(`draws i` is the draw of iteration `i`). -/
def rosterAcc (draws : Nat → Nat) : Nat → Finset Nat
  | 0 => ∅
  | k + 1 => insert (draws k) (rosterAcc draws k)

/-! ### Helper lemmas -/

theorem mapRange_getD {α : Type} (d : α) :
    ∀ (l : List α) (n : Nat), n ≤ l.length →
      (List.range n).map (fun i => l.getD i d) = l.take n := by
  intro l
  induction l with
  | nil =>
    intro n hn
    have hn0 : n = 0 := by simpa using hn
    subst hn0
    simp
  | cons a tl ih =>
    intro n hn
    cases n with
    | zero => simp
    | succ m =>
      rw [List.range_succ_eq_map, List.map_cons, List.map_map]
      simp only [List.getD_cons_zero, List.take_succ_cons]
      congr 1
      have := ih m (by simpa using hn)
      rw [← this]
      apply List.map_congr_left
      intro i _
      simp [List.getD_cons_succ]

theorem runLoop_eq_nil (wr : Nat → Bool) (m c : Nat) (h : ¬ c < m) :
    runLoop wr m c = [] := by
  unfold runLoop
  rw [dif_neg h]

theorem runLoop_eq_cons (wr : Nat → Bool) (m c : Nat) (h : c < m) :
    runLoop wr m c = RunEvent.file (c + 1) (wr (c + 1)) ::
      (if m ≤ c + 1 then []
       else RunEvent.sleep :: runLoop wr m (c + 1)) := by
  conv_lhs => unfold runLoop
  rw [dif_pos h]

theorem runLoop_ne_nil (wr : Nat → Bool) (m c : Nat) (h : c < m) :
    runLoop wr m c ≠ [] := by
  rw [runLoop_eq_cons wr m c h]
  simp

theorem runLoop_countP_aux (wr : Nat → Bool) (m : Nat) :
    ∀ k c, m - c = k → (runLoop wr m c).countP RunEvent.isFile = m - c := by
  intro k
  induction k with
  | zero =>
    intro c hc
    rw [runLoop_eq_nil wr m c (by omega)]
    simp
    omega
  | succ n ih =>
    intro c hc
    have hlt : c < m := by omega
    rw [runLoop_eq_cons wr m c hlt]
    by_cases h2 : m ≤ c + 1
    · rw [if_pos h2]
      simp [List.countP_cons, RunEvent.isFile]
      omega
    · rw [if_neg h2]
      simp only [List.countP_cons, RunEvent.isFile]
      rw [ih (c + 1) (by omega)]
      simp
      omega

theorem runLoop_countP (wr : Nat → Bool) (m c : Nat) :
    (runLoop wr m c).countP RunEvent.isFile = m - c :=
  runLoop_countP_aux wr m (m - c) c rfl

theorem runLoop_getLast_aux (wr : Nat → Bool) (m : Nat) :
    ∀ k c, m - c = k → c < m →
      (runLoop wr m c).getLast? = some (RunEvent.file m (wr m)) := by
  intro k
  induction k with
  | zero => intro c hc hlt; omega
  | succ n ih =>
    intro c hc hlt
    rw [runLoop_eq_cons wr m c hlt]
    by_cases h2 : m ≤ c + 1
    · rw [if_pos h2]
      have : m = c + 1 := by omega
      subst this
      rfl
    · rw [if_neg h2]
      have htail := ih (c + 1) (by omega) (by omega)
      rcases hne : runLoop wr m (c + 1) with _ | ⟨r, rs⟩
      · exact absurd hne (runLoop_ne_nil wr m (c + 1) (by omega))
      · rw [hne] at htail
        rw [List.getLast?_cons_cons, List.getLast?_cons_cons]
        exact htail

theorem runLoop_mem_file (wr : Nat → Bool) (m : Nat) :
    ∀ k c j, m - c = k → c < j → j ≤ m →
      RunEvent.file j (wr j) ∈ runLoop wr m c := by
  intro k
  induction k with
  | zero => intro c j hc hj hjm; omega
  | succ n ih =>
    intro c j hc hj hjm
    have hlt : c < m := by omega
    rw [runLoop_eq_cons wr m c hlt]
    by_cases hje : j = c + 1
    · subst hje
      exact List.mem_cons_self _ _
    · have h2 : ¬ m ≤ c + 1 := by omega
      rw [if_neg h2]
      apply List.mem_cons_of_mem
      apply List.mem_cons_of_mem
      exact ih (c + 1) j (by omega) (by omega) hjm

/-! ### Claim C1 -/

/-- C1: every Clock Event Record produced by the record synthesizer
`generate_random_entry` has a `transaction_type` equal to one of the two
enum values ON or OFF (whose wire strings, per the code's
`random.choice(['BON', 'BOF'])`, are 'BON' and 'BOF'), for every
invocation. -/
theorem c1_transaction_type_enum (t : Timestamp) (employeeId : Option String)
    (r : EntryRand) :
    (generate_random_entry t employeeId r).transaction_type = TransactionType.ON.code ∨
    (generate_random_entry t employeeId r).transaction_type = TransactionType.OFF.code := by
  cases h : r.txIsOn
  · right
    simp [generate_random_entry, h]
  · left
    simp [generate_random_entry, h]

/-! ### Claim C3 -/

/-- C3: the claim says the roster generator signals a configuration error
(terminates) when `count` exceeds the ID range size.  The code
(`generate_test_users`, `while len(collar_ids) < num_users`) has no such
guard: at the failing input `num_users = 3`, `min_collar = 1`,
`max_collar = 2`, the loop's exit condition `num_users ≤ len(collar_ids)`
is false after every number of iterations, for every sequence of in-range
`randint` draws — the loop never terminates. -/
theorem c3_roster_loop_never_reaches_count (draws : Nat → Nat)
    (hdraws : ∀ i, draws i ∈ Finset.Icc 1 2) (k : Nat) :
    ¬ 3 ≤ (rosterAcc draws k).card := by
  have hsub : ∀ j, rosterAcc draws j ⊆ Finset.Icc 1 2 := by
    intro j
    induction j with
    | zero => simp [rosterAcc]
    | succ j ih =>
      exact Finset.insert_subset (hdraws j) ih
  have hcard := Finset.card_le_card (hsub k)
  rw [Nat.card_Icc] at hcard
  omega

/-- Witness for C3 at the constant draw sequence `1, 1, 1, …` after five
iterations. -/
theorem c3_roster_loop_never_reaches_count_witness :
    (∀ i : Nat, (fun _ : Nat => 1) i ∈ Finset.Icc 1 2) ∧
    ¬ 3 ≤ (rosterAcc (fun _ : Nat => 1) 5).card :=
  ⟨fun _ => show (1 : Nat) ∈ Finset.Icc 1 2 by decide,
   c3_roster_loop_never_reaches_count (fun _ => 1)
     (fun _ => show (1 : Nat) ∈ Finset.Icc 1 2 by decide) 5⟩

/-! ### Claim C4 -/

/-- C4: for every run in which a roster was loaded, the unknown-ID pool
built by `generate_unknown_collar_ids` (from the initial empty global) and
the valid-ID set are disjoint: an unknown-pool entry `u` never equals a
valid entry `v` as a string, and never equals it numerically (there is no
integer value that Python's `int` assigns to both). -/
theorem c4_unknown_pool_disjoint (validIds : List String) (b1 b2 b3 : List Nat)
    (u v : String)
    (hu : u ∈ generate_unknown_collar_ids [] validIds b1 b2 b3)
    (hv : v ∈ validIds) :
    u ≠ v ∧ ∀ m : Int, pyInt? v = some m → pyInt? u ≠ some m := by
  have hval : validIds ≠ [] := by
    intro h
    subst h
    exact absurd hv (List.not_mem_nil v)
  unfold generate_unknown_collar_ids at hu
  rw [if_neg hval] at hu
  rcases foldl_unknownStep_mem _ _ [] u hu with h1 | ⟨n, _, hnv, rfl⟩
  · exact absurd h1 (List.not_mem_nil u)
  constructor
  · intro heq
    exact hnv (List.mem_filterMap.mpr ⟨v, hv, by rw [← heq, pyInt?_pad5]⟩)
  · intro m hvm hum
    rw [pyInt?_pad5] at hum
    have hmn : m = (n : Int) := by
      injection hum with h
      omega
    subst hmn
    exact hnv (List.mem_filterMap.mpr ⟨v, hv, hvm⟩)

/-- Witness for C4: valid set containing "00100", one draw `5` in the low
band, unknown pool entry "00005". -/
theorem c4_unknown_pool_disjoint_witness :
    ("00005" ∈ generate_unknown_collar_ids [] ["00100"] [5] [] []) ∧
    ("00100" ∈ ["00100"]) ∧
    ("00005" ≠ "00100" ∧
      ∀ m : Int, pyInt? "00100" = some m → pyInt? "00005" ≠ some m) :=
  ⟨by decide, by decide,
   c4_unknown_pool_disjoint ["00100"] [5] [] [] "00005" "00100" (by decide) (by decide)⟩

/-! ### Claim C8 -/

/-- C8: for every configuration, the run loop never performs more than
`MAX_FILE_COUNT` file-producing iterations, and the last event of its trace
is the final file attempt (never the inter-batch sleep): the loop never
sleeps after the iteration that produced the `MAX_FILE_COUNT`-th file. -/
theorem c8_runloop_bounded_no_final_sleep (wr : Nat → Bool) (maxCount : Nat) :
    (runLoop wr maxCount 0).countP RunEvent.isFile ≤ maxCount ∧
    (runLoop wr maxCount 0).getLast? =
      (if maxCount = 0 then none
       else some (RunEvent.file maxCount (wr maxCount))) := by
  constructor
  · rw [runLoop_countP]
    omega
  · by_cases hm : maxCount = 0
    · subst hm
      rw [runLoop_eq_nil wr 0 0 (by omega)]
      simp
    · rw [if_neg hm]
      exact runLoop_getLast_aux wr maxCount (maxCount - 0) 0 rfl (by omega)

/-! ### Claim C9 -/

/-- C9: if the file write of iteration `k` fails (caught inside
`create_bobo_csv`, which logs and returns `None`), the failed iteration
still appears in the trace, the loop still performs the next iteration
`k + 1`, and the total number of iterations is still `MAX_FILE_COUNT`
(the counter was incremented before the write, so the failed batch counts
toward the limit). -/
theorem c9_write_failure_continues (wr : Nat → Bool) (maxCount k : Nat)
    (hk1 : 1 ≤ k) (hkm : k < maxCount) (hfail : wr k = false) :
    RunEvent.file k false ∈ runLoop wr maxCount 0 ∧
    RunEvent.file (k + 1) (wr (k + 1)) ∈ runLoop wr maxCount 0 ∧
    (runLoop wr maxCount 0).countP RunEvent.isFile = maxCount := by
  refine ⟨?_, ?_, ?_⟩
  · have := runLoop_mem_file wr maxCount (maxCount - 0) 0 k rfl (by omega) (by omega)
    rwa [hfail] at this
  · exact runLoop_mem_file wr maxCount (maxCount - 0) 0 (k + 1) rfl (by omega) (by omega)
  · rw [runLoop_countP]
    omega

/-- Witness for C9: every write fails, two iterations configured, failure at
iteration 1. -/
theorem c9_write_failure_continues_witness :
    (1 : Nat) ≤ 1 ∧ 1 < 2 ∧ (fun _ : Nat => false) 1 = false ∧
    (RunEvent.file 1 false ∈ runLoop (fun _ => false) 2 0 ∧
     RunEvent.file 2 ((fun _ : Nat => false) 2) ∈ runLoop (fun _ => false) 2 0 ∧
     (runLoop (fun _ => false) 2 0).countP RunEvent.isFile = 2) :=
  ⟨by decide, by decide, rfl,
   c9_write_failure_continues (fun _ => false) 2 1 (by decide) (by decide) rfl⟩

/-- A fixed reference timestamp for concrete instantiations. -/
def wTimestamp : Timestamp := ⟨2025, 1, 2, 3, 4, 5⟩

/-- A fixed per-entry randomness bundle for concrete instantiations. -/
def wRand : EntryRand := ⟨true, 7, 10000, 0, 0, 0, 0, 0⟩

/-! ### Claim C2 -/

/-- C2 counterexample: the claim says the unknown pool "always has the same
fixed size across runs".  Two runs over the same valid set `["00001"]`, both
with in-band `randint` draws (low band 1–99 twice 10 draws, high band
12001–15000 ten draws, middle band 100–12000 twenty draws), produce pools of
sizes 39 and 40: a low-band draw that collides with the valid set is
discarded and never resampled. -/
theorem c2_counterexample :
    (generate_unknown_collar_ids [] ["00001"]
      [1, 2, 3, 4, 5, 6, 7, 8, 9, 10]
      [12001, 12002, 12003, 12004, 12005, 12006, 12007, 12008, 12009, 12010]
      [200, 201, 202, 203, 204, 205, 206, 207, 208, 209,
       210, 211, 212, 213, 214, 215, 216, 217, 218, 219]).length = 39 ∧
    (generate_unknown_collar_ids [] ["00001"]
      [2, 3, 4, 5, 6, 7, 8, 9, 10, 11]
      [12001, 12002, 12003, 12004, 12005, 12006, 12007, 12008, 12009, 12010]
      [200, 201, 202, 203, 204, 205, 206, 207, 208, 209,
       210, 211, 212, 213, 214, 215, 216, 217, 218, 219]).length = 40 := by
  constructor
  · decide
  · decide

/-- C2 (amended): for every non-empty valid-ID set, the unknown-ID pool
builder samples each band a fixed number of times (10, 10 and 20 draws) and
discards collisions with the valid set without resampling, so the pool size
equals the number of the 40 draws that do not collide; it is therefore at
most 40 and can differ between runs. -/
theorem c2_unknown_pool_size (validIds : List String) (b1 b2 b3 : List Nat)
    (h1 : b1.length = 10) (h2 : b2.length = 10) (h3 : b3.length = 20)
    (hval : validIds ≠ []) :
    (generate_unknown_collar_ids [] validIds b1 b2 b3).length
      = (b1 ++ b2 ++ b3).countP (fun n : Nat => decide ((n : Int) ∉ validIntsOf validIds)) ∧
    (generate_unknown_collar_ids [] validIds b1 b2 b3).length ≤ 40 := by
  unfold generate_unknown_collar_ids
  rw [if_neg hval]
  have heq := foldl_unknownStep_length (validIntsOf validIds) (b1 ++ b2 ++ b3) []
  simp only [List.length_nil, Nat.zero_add] at heq
  refine ⟨heq, ?_⟩
  rw [heq]
  have hle : (b1 ++ b2 ++ b3).countP (fun n : Nat => decide ((n : Int) ∉ validIntsOf validIds))
      ≤ (b1 ++ b2 ++ b3).length := List.countP_le_length _
  have hlen : (b1 ++ b2 ++ b3).length = 40 := by
    simp [h1, h2, h3]
  omega

/-- Witness for C2 (amended) with a one-element valid set and collision-free
draw lists of the right lengths. -/
theorem c2_unknown_pool_size_witness :
    ([2, 3, 4, 5, 6, 7, 8, 9, 10, 11] : List Nat).length = 10 ∧
    ([12001, 12002, 12003, 12004, 12005, 12006, 12007, 12008, 12009, 12010] : List Nat).length
      = 10 ∧
    ([200, 201, 202, 203, 204, 205, 206, 207, 208, 209,
      210, 211, 212, 213, 214, 215, 216, 217, 218, 219] : List Nat).length = 20 ∧
    (["00001"] : List String) ≠ [] ∧
    (generate_unknown_collar_ids [] ["00001"]
      [2, 3, 4, 5, 6, 7, 8, 9, 10, 11]
      [12001, 12002, 12003, 12004, 12005, 12006, 12007, 12008, 12009, 12010]
      [200, 201, 202, 203, 204, 205, 206, 207, 208, 209,
       210, 211, 212, 213, 214, 215, 216, 217, 218, 219]).length
      = ([2, 3, 4, 5, 6, 7, 8, 9, 10, 11] ++
         [12001, 12002, 12003, 12004, 12005, 12006, 12007, 12008, 12009, 12010] ++
         [200, 201, 202, 203, 204, 205, 206, 207, 208, 209,
          210, 211, 212, 213, 214, 215, 216, 217, 218, 219]).countP
          (fun n : Nat => decide ((n : Int) ∉ validIntsOf ["00001"])) ∧
    (generate_unknown_collar_ids [] ["00001"]
      [2, 3, 4, 5, 6, 7, 8, 9, 10, 11]
      [12001, 12002, 12003, 12004, 12005, 12006, 12007, 12008, 12009, 12010]
      [200, 201, 202, 203, 204, 205, 206, 207, 208, 209,
       210, 211, 212, 213, 214, 215, 216, 217, 218, 219]).length ≤ 40 :=
  ⟨by decide, by decide, by decide, by decide,
   (c2_unknown_pool_size ["00001"] _ _ _ (by decide) (by decide) (by decide)
     (by decide)).1,
   (c2_unknown_pool_size ["00001"] _ _ _ (by decide) (by decide) (by decide)
     (by decide)).2⟩

/-! ### Claim C5 -/

/-- C5 counterexample: the claim says that whenever the roster file is
absent or unreadable, the valid set is empty after the loader call.  If
reading fails midway (an exception inside the `for row in reader` loop,
after the global was reassigned), the rows parsed before the failure remain
in `VALID_COLLAR_IDS` even though the loader returns `False`: here one row
`["00100", …]` was consumed before the failure, and the valid set afterwards
is `["00100"]`, of size 1, not empty — so the caller does not fall back to
fully-random IDs. -/
theorem c5_counterexample :
    (load_valid_collar_ids []
      (RosterRead.midFail [["00100", "100@bobosynctest.net"]])).1 = ["00100"] ∧
    (load_valid_collar_ids []
      (RosterRead.midFail [["00100", "100@bobosynctest.net"]])).2 = false ∧
    (load_valid_collar_ids []
      (RosterRead.midFail [["00100", "100@bobosynctest.net"]])).1.length = 1 := by
  refine ⟨by decide, rfl, by decide⟩

/-- C5 (amended): if the roster file is absent, fails to open, or fails
before any data row is read, the valid set is empty after the loader call
(it keeps its initial empty value), and the simulator then generates every
record through `generate_random_entry` with no predetermined ID — a fully
random 5-digit employee ID per record, with no valid/unknown distinction.
(When reading fails only midway, the rows already parsed remain in the
valid set; see the counterexample.) -/
theorem c5_loader_empty_fallback (prevValid : List String) (r : RosterRead)
    (t : Timestamp) (numEntries : Nat) (shuffleRes : List String)
    (rands : Nat → EntryRand)
    (hprev : prevValid = [])
    (hr : r = RosterRead.absent ∨ r = RosterRead.openFail ∨ r = RosterRead.headerFail)
    (hdraw : ∀ i, (rands i).empDraw ≤ 99999) :
    (load_valid_collar_ids prevValid r).1 = [] ∧
    create_bobo_entries (load_valid_collar_ids prevValid r).1 t numEntries shuffleRes rands
      = (List.range numEntries).map (fun i => generate_random_entry t none (rands i)) ∧
    ∀ e ∈ create_bobo_entries (load_valid_collar_ids prevValid r).1 t numEntries
        shuffleRes rands,
      e.employee_id.data.length = 5 := by
  have hempty : (load_valid_collar_ids prevValid r).1 = [] := by
    rcases hr with rfl | rfl | rfl <;> simpa [load_valid_collar_ids] using hprev
  have hbatch : create_bobo_entries (load_valid_collar_ids prevValid r).1 t numEntries
      shuffleRes rands
      = (List.range numEntries).map (fun i => generate_random_entry t none (rands i)) := by
    rw [hempty]
    unfold create_bobo_entries collarIdsToUse
    rw [if_pos rfl]
    apply List.map_congr_left
    intro i _
    have hslot : slotId [] i = none := by
      unfold slotId
      rw [if_neg]
      simp
    rw [hslot]
  refine ⟨hempty, hbatch, ?_⟩
  intro e he
  rw [hbatch] at he
  obtain ⟨i, _, rfl⟩ := List.mem_map.mp he
  show (pad5 (rands i).empDraw).data.length = 5
  have hlt : (rands i).empDraw < 10 ^ 5 := by
    have h5 : (10 : Nat) ^ 5 = 100000 := by norm_num
    have := hdraw i
    omega
  show (padChars 5 (rands i).empDraw).length = 5
  exact padChars_length_of_lt 5 _ hlt

/-- Witness for C5 (amended): roster file absent, one-record batch. -/
theorem c5_loader_empty_fallback_witness :
    (([] : List String) = []) ∧
    (RosterRead.absent = RosterRead.absent ∨ RosterRead.absent = RosterRead.openFail ∨
      RosterRead.absent = RosterRead.headerFail) ∧
    (∀ i : Nat, ((fun _ : Nat => wRand) i).empDraw ≤ 99999) ∧
    ((load_valid_collar_ids [] RosterRead.absent).1 = [] ∧
     create_bobo_entries (load_valid_collar_ids [] RosterRead.absent).1 wTimestamp 1 []
        (fun _ => wRand)
       = (List.range 1).map (fun i => generate_random_entry wTimestamp none
           ((fun _ : Nat => wRand) i)) ∧
     ∀ e ∈ create_bobo_entries (load_valid_collar_ids [] RosterRead.absent).1 wTimestamp 1
         [] (fun _ => wRand),
       e.employee_id.data.length = 5) :=
  ⟨rfl, Or.inl rfl, fun _ => show wRand.empDraw ≤ 99999 by decide,
   c5_loader_empty_fallback [] RosterRead.absent wTimestamp 1 [] (fun _ => wRand)
     rfl (Or.inl rfl) (fun _ => show wRand.empDraw ≤ 99999 by decide)⟩

/-! ### Claim C7 -/

theorem padChars_length_two (n : Nat) (h : n < 100) : (padChars 2 n).length = 2 := by
  apply padChars_length_of_lt
  have h2 : (10 : Nat) ^ 2 = 100 := by norm_num
  omega

/-- C7: for every output batch, all Clock Event Records written to that file
have the same `clocking_date` (the batch's reference date) and the same
HH:MM prefix of `clocking_time` (the reference hour and minute); only the
seconds field varies between records. -/
theorem c7_batch_shares_date_and_hhmm (valid : List String) (t : Timestamp)
    (numEntries : Nat) (shuffleRes : List String) (rands : Nat → EntryRand)
    (hh : t.hour < 24) (hm : t.minute < 60) :
    ∀ e ∈ create_bobo_entries valid t numEntries shuffleRes rands,
      e.clocking_date = fmtDate t ∧
      e.clocking_time.data.take 4 = padChars 2 t.hour ++ padChars 2 t.minute ∧
      ∃ s : Nat, e.clocking_time.data
        = padChars 2 t.hour ++ padChars 2 t.minute ++ padChars 2 s := by
  intro e he
  obtain ⟨i, _, rfl⟩ := List.mem_map.mp he
  refine ⟨rfl, ?_, ⟨(rands i).secDraw, rfl⟩⟩
  show (padChars 2 t.hour ++ padChars 2 t.minute ++ padChars 2 (rands i).secDraw).take 4
    = padChars 2 t.hour ++ padChars 2 t.minute
  have hlen : (padChars 2 t.hour ++ padChars 2 t.minute).length = 4 := by
    rw [List.length_append, padChars_length_two t.hour (by omega),
      padChars_length_two t.minute (by omega)]
  rw [List.take_append_of_le_length (by omega)]
  exact List.take_of_length_le (by omega)

/-- Witness for C7 at a concrete timestamp and a one-record batch. -/
theorem c7_batch_shares_date_and_hhmm_witness :
    wTimestamp.hour < 24 ∧ wTimestamp.minute < 60 ∧
    ∀ e ∈ create_bobo_entries [] wTimestamp 1 [] (fun _ => wRand),
      e.clocking_date = fmtDate wTimestamp ∧
      e.clocking_time.data.take 4
        = padChars 2 wTimestamp.hour ++ padChars 2 wTimestamp.minute ∧
      ∃ s : Nat, e.clocking_time.data
        = padChars 2 wTimestamp.hour ++ padChars 2 wTimestamp.minute ++ padChars 2 s :=
  ⟨by decide, by decide,
   c7_batch_shares_date_and_hhmm [] wTimestamp 1 [] (fun _ => wRand)
     (by decide) (by decide)⟩

/-! ### Claim C6 -/

/-- C6: for every batch composed while the valid pool is non-empty, with the
random primitives meeting their contracts (`randint(0,2)` for the unknown
count, `sample` taking distinct positions, `choices` drawing members of the
valid pool with replacement, `shuffle` permuting), the batch contains
between 0 and `min 2 unknown.length` employee IDs outside the valid pool,
and every employee ID in the batch is an element of the valid pool or of the
unknown pool. -/
theorem c6_batch_composition (valid unknown : List String) (t : Timestamp)
    (numEntries unknownCount : Nat) (sampleRes choicesRes shuffleRes : List String)
    (rands : Nat → EntryRand)
    (hvalid : valid ≠ [])
    (hcount : unknownCount ≤ 2)
    (hsample : isSampleOf sampleRes unknown (min unknownCount unknown.length))
    (hchoices : ∀ x ∈ choicesRes, x ∈ valid)
    (hclen : choicesRes.length
      = numEntries - (injectedUnknownIds unknown unknownCount sampleRes).length)
    (hshuffle : shuffleRes.Perm
      (preShuffleIds unknown numEntries unknownCount sampleRes choicesRes)) :
    ((create_bobo_entries valid t numEntries shuffleRes rands).map Entry.employee_id).countP
        (fun x => decide (x ∉ valid)) ≤ min 2 unknown.length ∧
    ∀ e ∈ create_bobo_entries valid t numEntries shuffleRes rands,
      e.employee_id ∈ valid ∨ e.employee_id ∈ unknown := by
  obtain ⟨idx, hidxnd, hidxlen, hres⟩ := hsample
  have hsampleSub : ∀ x ∈ sampleRes, x ∈ unknown := by
    subst hres
    intro x hx
    obtain ⟨j, _, rfl⟩ := List.mem_map.mp hx
    exact List.get_mem unknown j.1 j.2
  have hsampleLen : sampleRes.length = min unknownCount unknown.length := by
    subst hres
    simpa using hidxlen
  have hWsub : ∀ x ∈ injectedUnknownIds unknown unknownCount sampleRes, x ∈ unknown := by
    unfold injectedUnknownIds
    by_cases hc : 0 < unknownCount ∧ unknown ≠ []
    · rw [if_pos hc]
      exact hsampleSub
    · rw [if_neg hc]
      intro x hx
      exact absurd hx (List.not_mem_nil x)
  have hWlen : (injectedUnknownIds unknown unknownCount sampleRes).length
      ≤ min 2 unknown.length := by
    unfold injectedUnknownIds
    by_cases hc : 0 < unknownCount ∧ unknown ≠ []
    · rw [if_pos hc, hsampleLen]
      exact min_le_min hcount le_rfl
    · rw [if_neg hc]
      simp
  have hPeq : preShuffleIds unknown numEntries unknownCount sampleRes choicesRes
      = injectedUnknownIds unknown unknownCount sampleRes ++
        (if 0 < numEntries - (injectedUnknownIds unknown unknownCount sampleRes).length
         then choicesRes else []) := rfl
  have hPlen : numEntries
      ≤ (preShuffleIds unknown numEntries unknownCount sampleRes choicesRes).length := by
    rw [hPeq, List.length_append]
    by_cases hrem : 0 < numEntries - (injectedUnknownIds unknown unknownCount sampleRes).length
    · rw [if_pos hrem, hclen]
      omega
    · rw [if_neg hrem]
      simp only [List.length_nil]
      omega
  have hshlen : shuffleRes.length
      = (preShuffleIds unknown numEntries unknownCount sampleRes choicesRes).length :=
    hshuffle.length_eq
  have hids : (create_bobo_entries valid t numEntries shuffleRes rands).map Entry.employee_id
      = shuffleRes.take numEntries := by
    unfold create_bobo_entries collarIdsToUse
    rw [if_neg hvalid, List.map_map]
    have hstep : ∀ i ∈ List.range numEntries,
        (Entry.employee_id ∘ fun i =>
          generate_random_entry t (slotId shuffleRes i) (rands i)) i
          = shuffleRes.getD i "" := by
      intro i hi
      have hilt : i < numEntries := List.mem_range.mp hi
      have hlen : i < shuffleRes.length := by omega
      have hne : shuffleRes ≠ [] := List.ne_nil_of_length_pos (by omega)
      show (generate_random_entry t (slotId shuffleRes i) (rands i)).employee_id = _
      unfold slotId
      rw [if_pos ⟨hne, hlen⟩]
      rfl
    rw [List.map_congr_left hstep]
    exact mapRange_getD "" shuffleRes numEntries (by omega)
  have hc0 : (if 0 < numEntries - (injectedUnknownIds unknown unknownCount sampleRes).length
      then choicesRes else []).countP (fun x => decide (x ∉ valid)) = 0 := by
    by_cases hrem : 0 < numEntries - (injectedUnknownIds unknown unknownCount sampleRes).length
    · rw [if_pos hrem]
      rw [List.countP_eq_zero]
      intro a ha
      simp [hchoices a ha]
    · rw [if_neg hrem]
      rfl
  constructor
  · rw [hids]
    calc (shuffleRes.take numEntries).countP (fun x => decide (x ∉ valid))
        ≤ shuffleRes.countP (fun x => decide (x ∉ valid)) :=
          (List.take_sublist numEntries shuffleRes).countP_le _
      _ = (preShuffleIds unknown numEntries unknownCount sampleRes choicesRes).countP
            (fun x => decide (x ∉ valid)) := hshuffle.countP_eq _
      _ = (injectedUnknownIds unknown unknownCount sampleRes).countP
            (fun x => decide (x ∉ valid)) +
          (if 0 < numEntries - (injectedUnknownIds unknown unknownCount sampleRes).length
           then choicesRes else []).countP (fun x => decide (x ∉ valid)) := by
            rw [hPeq, List.countP_append]
      _ ≤ (injectedUnknownIds unknown unknownCount sampleRes).length + 0 := by
            rw [hc0]
            exact Nat.add_le_add_right (List.countP_le_length _) 0
      _ ≤ min 2 unknown.length := by omega
  · intro e he
    have hmem : e.employee_id
        ∈ (create_bobo_entries valid t numEntries shuffleRes rands).map Entry.employee_id :=
      List.mem_map_of_mem Entry.employee_id he
    rw [hids] at hmem
    have h2 : e.employee_id ∈ shuffleRes := List.take_subset _ _ hmem
    have h3 := hshuffle.mem_iff.mp h2
    rw [hPeq] at h3
    rcases List.mem_append.mp h3 with h4 | h5
    · exact Or.inr (hWsub _ h4)
    · by_cases hrem : 0 < numEntries - (injectedUnknownIds unknown unknownCount sampleRes).length
      · rw [if_pos hrem] at h5
        exact Or.inl (hchoices _ h5)
      · rw [if_neg hrem] at h5
        exact absurd h5 (List.not_mem_nil _)

/-- Witness for C6: valid pool `["00100"]`, unknown pool `["00005"]`, a
two-entry batch injecting one unknown ID. -/
theorem c6_batch_composition_witness :
    (["00100"] : List String) ≠ [] ∧
    (1 : Nat) ≤ 2 ∧
    isSampleOf ["00005"] ["00005"] (min 1 (["00005"] : List String).length) ∧
    (∀ x ∈ (["00100"] : List String), x ∈ (["00100"] : List String)) ∧
    (["00100"] : List String).length
      = 2 - (injectedUnknownIds ["00005"] 1 ["00005"]).length ∧
    (["00100", "00005"] : List String).Perm (preShuffleIds ["00005"] 2 1 ["00005"] ["00100"]) ∧
    (((create_bobo_entries ["00100"] wTimestamp 2 ["00100", "00005"]
        (fun _ => wRand)).map Entry.employee_id).countP
        (fun x => decide (x ∉ (["00100"] : List String)))
      ≤ min 2 (["00005"] : List String).length ∧
    ∀ e ∈ create_bobo_entries ["00100"] wTimestamp 2 ["00100", "00005"] (fun _ => wRand),
      e.employee_id ∈ (["00100"] : List String) ∨
      e.employee_id ∈ (["00005"] : List String)) :=
  ⟨by decide, by decide,
   ⟨[⟨0, by decide⟩], by decide, by decide, by decide⟩,
   by decide, by decide, by decide,
   c6_batch_composition ["00100"] ["00005"] wTimestamp 2 1 ["00005"] ["00100"]
     ["00100", "00005"] (fun _ => wRand) (by decide) (by decide)
     ⟨[⟨0, by decide⟩], by decide, by decide, by decide⟩
     (by decide) (by decide) (by decide)⟩

/-! ### Claim C10 -/

/-- Valid set for the C10 counterexample run. -/
def dupValid : List String := ["00100"]

/-- Low-band draws (range 1–99) with the value 5 drawn twice. -/
def dupBand1 : List Nat := [5, 5, 6, 7, 8, 9, 11, 12, 13, 14]

/-- High-band draws (range 12001–15000). -/
def dupBand2 : List Nat :=
  [12001, 12002, 12003, 12004, 12005, 12006, 12007, 12008, 12009, 12010]

/-- Middle-band draws (range 100–12000), none colliding with the valid set. -/
def dupBand3 : List Nat :=
  [200, 201, 202, 203, 204, 205, 206, 207, 208, 209,
   210, 211, 212, 213, 214, 215, 216, 217, 218, 219]

/-- The unknown pool built from those draws: it contains "00005" twice. -/
def dupPool : List String :=
  generate_unknown_collar_ids [] dupValid dupBand1 dupBand2 dupBand3

/-- C10 counterexample: the claim says the unknown IDs injected into a batch
are pairwise distinct.  `random.sample` picks distinct positions, but the
pool built by `generate_unknown_collar_ids` can contain the same value at
two positions (a band's `randint` repeating a draw), and then a batch can
contain the same unknown ID twice: here the pool's first two entries are
both "00005", sampling positions 0 and 1 satisfies the `sample` contract for
an unknown count of 2, the shuffle contract holds, and the composed
two-entry batch has employee IDs `["00005", "00005"]` — not pairwise
distinct. -/
theorem c10_counterexample :
    dupPool.take 2 = ["00005", "00005"] ∧
    isSampleOf ["00005", "00005"] dupPool (min 2 dupPool.length) ∧
    (["00005", "00005"] : List String).Perm
      (preShuffleIds dupPool 2 2 ["00005", "00005"] []) ∧
    (create_bobo_entries dupValid wTimestamp 2 ["00005", "00005"]
        (fun _ => wRand)).map Entry.employee_id = ["00005", "00005"] ∧
    ¬ ((create_bobo_entries dupValid wTimestamp 2 ["00005", "00005"]
        (fun _ => wRand)).map Entry.employee_id).Nodup :=
  ⟨by decide,
   ⟨[⟨0, by decide⟩, ⟨1, by decide⟩], by decide, by decide, by decide⟩,
   by decide, by decide, by decide⟩

/-- C10 (amended): the unknown IDs injected into a batch are sampled at
pairwise-distinct positions of the unknown pool (`random.sample`, without
replacement), so they are pairwise distinct values whenever the unknown
pool itself contains no duplicate values; the pool builder can produce
duplicate values (see the counterexample), in which case a batch can
repeat an unknown ID. -/
theorem c10_sample_nodup (unknown sampleRes : List String) (k : Nat)
    (hnodup : unknown.Nodup) (hs : isSampleOf sampleRes unknown k) :
    sampleRes.Nodup := by
  obtain ⟨idx, hidx, _, rfl⟩ := hs
  exact List.Nodup.map (List.nodup_iff_injective_get.mp hnodup) hidx

/-- Witness for C10 (amended): a duplicate-free two-element pool, sampling
position 1. -/
theorem c10_sample_nodup_witness :
    (["00005", "00006"] : List String).Nodup ∧
    isSampleOf ["00006"] ["00005", "00006"] 1 ∧
    (["00006"] : List String).Nodup :=
  ⟨by decide,
   ⟨[⟨1, by decide⟩], by decide, by decide, by decide⟩,
   c10_sample_nodup ["00005", "00006"] ["00006"] 1 (by decide)
     ⟨[⟨1, by decide⟩], by decide, by decide, by decide⟩⟩

end BoboSim
